import Mathlib

/-!
Shallow embedding of the recursive-descent parser of `src/parser.rs`
(crate `rlox`).  The parser consumes a stream of tokens and produces a
list of AST nodes, or a list of parsing errors.

The supporting types (`Span`, `Token`, `Kind`, `AstNode`, `Value`) live in
modules of the repository that are not part of the provided sources; they
are modelled from the specification where so marked.  The parser functions
themselves are translated directly from `src/parser.rs`.

Mutable-parser methods `fn f(&mut self) -> Result<T, ParsingError>`
become state-passing functions `Parser → Except ParsingError T × Parser`
(on an error the returned state is the parser state at the moment of the
failure, exactly as the Rust `self` is left mutated).  The mutually
recursive grammar rules take an explicit fuel argument; `none` means the
fuel ran out (the Rust functions are partial: e.g. `parse_program` loops
forever on the input `}`), `some r` is the result the Rust code returns.
-/

namespace Rlox

/-- Modelled from the spec: a `Span` is a start/end offset pair into the
source (field `end` is called `stop` because `end` is a Lean keyword). -/
structure Span where
  start : Nat
  stop : Nat
deriving DecidableEq, Repr

/-- Modelled from the spec: `Span::new(start, end)`. -/
def Span.new (start stop : Nat) : Span := ⟨start, stop⟩

/-- Modelled from the spec: `Span::merge` — given a list of spans, produces
the minimal span covering all of them. -/
def Span.merge (spans : List Span) : Span :=
  match spans with
  | [] => ⟨0, 0⟩
  | s :: rest =>
      rest.foldl (fun acc sp => ⟨min acc.start sp.start, max acc.stop sp.stop⟩) s

/-- `a` covers `b` when `b`'s offsets lie inside `a`'s. -/
def Span.covers (a b : Span) : Prop := a.start ≤ b.start ∧ b.stop ≤ a.stop

/-- Modelled from the spec: the token kinds the parser inspects (crate
module `token`).  Literal kinds carry their lexical payload; the numeric
payload is kept as its lexeme text, the parser treats it opaquely. -/
inductive Kind where
  | Var | Fun | Print | If | Else | While | For | Return
  | True | False | Nil
  | LeftParen | RightParen | LeftBrace | RightBrace
  | Semicolon | Comma | Equal
  | EqualEqual | BangEqual | Less | LessEqual | Greater | GreaterEqual
  | Plus | Minus | Star | Slash | Bang
  | IdentifierLiteral (id : String)
  | NumberLiteral (n : String)
  | StringLiteral (s : String)
  | Eof
deriving DecidableEq, Repr

/-- Modelled from the spec: a lexical token, a kind plus a source span. -/
structure Token where
  kind : Kind
  span : Span
deriving DecidableEq, Repr

/-- Modelled from the spec: the opaque runtime value type (crate module
`value`); the parser only wraps literal payloads into constants. -/
inductive Value where
  | Bool (b : Bool)
  | Number (n : String)
  | Str (s : String)
  | Nil
deriving DecidableEq, Repr

mutual
/-- Modelled from the spec: an `AstNode` wraps a statement or expression
payload together with the span of source text it was parsed from. -/
inductive AstNode where
  | stmt (statement : Statement) (span : Span)
  | expr (expression : Expression) (span : Span)

/-- Modelled from the spec: the statement variants of the AST. -/
inductive Statement where
  | Declaration (name : String) (initializer : Option AstNode)
  | FunDeclaration (name : String) (parameters : List Token) (body : AstNode)
  | Block (declarations : List AstNode) (rbrace : Token)
  | Print (expression : AstNode)
  | If (condition : AstNode) (if_block : AstNode) (else_block : Option AstNode)
  | While (condition : AstNode) (block : AstNode)
  | For (initializer : Option AstNode) (condition : Option AstNode)
        (update : Option AstNode) (block : AstNode)
  | Return (value : Option AstNode)
  | Expression (expression : AstNode)

/-- Modelled from the spec: the expression variants of the AST. -/
inductive Expression where
  | Assignment (lvalue : AstNode) (operator : Token) (rvalue : AstNode)
  | Binary (left : AstNode) (operator : Token) (right : AstNode)
  | Unary (operator : Token) (expression : AstNode)
  | Call (target : AstNode) (arguments : List AstNode)
  | Variable (name : String)
  | Constant (value : Value)
end

/-- The span an `AstNode` carries. -/
def AstNode.span : AstNode → Span
  | .stmt _ sp => sp
  | .expr _ sp => sp

/-- `AstNode::new_statement(statement, span)`. -/
def AstNode.new_statement (statement : Statement) (span : Span) : AstNode :=
  .stmt statement span

/-- `AstNode::new_expression(expression, span)`. -/
def AstNode.new_expression (expression : Expression) (span : Span) : AstNode :=
  .expr expression span

/-- `AstNode::new_ast_node(node, span)`: re-wraps an existing node's payload
with a widened span (used for parenthesised grouping). -/
def AstNode.new_ast_node (node : AstNode) (span : Span) : AstNode :=
  match node with
  | .stmt s _ => .stmt s span
  | .expr e _ => .expr e span

/-- `ParsingError { message, span }` from `src/parser.rs`. -/
structure ParsingError where
  message : String
  span : Span
deriving DecidableEq, Repr

/-- The parser state.  The Rust `Parser` holds a scanner plus a two-token
buffer `current`/`next`; lexing is out of scope, so the state is the stream
of tokens not yet consumed (`current` is its head) followed, conceptually,
by an infinite tail of end-of-input tokens carrying `eofSpan` (the spec's
input contract: the source always yields at least an `Eof` token, returned
repeatedly once reached). -/
structure Parser where
  tokens : List Token
  eofSpan : Span
deriving DecidableEq, Repr

namespace Parser

/-- The token `self.current`: the head of the stream, `Eof` once exhausted. -/
def current (p : Parser) : Token :=
  p.tokens.headD ⟨.Eof, p.eofSpan⟩

/-- `fn advance(&mut self) -> Token`: consumes and returns `current`,
shifting the stream by one. -/
def advance (p : Parser) : Token × Parser :=
  (p.current, ⟨p.tokens.tail, p.eofSpan⟩)

/-- `fn eat(&mut self, kind, message) -> Result<Token, ParsingError>`. -/
def eat (p : Parser) (kind : Kind) (message : String) :
    Except ParsingError Token × Parser :=
  if p.current.kind = kind then
    let (t, p') := p.advance
    (.ok t, p')
  else
    (.error ⟨message, p.current.span⟩, p)

/-- `fn id_token(&mut self) -> Result<(String, Span), ParsingError>`:
unconditionally advances, then checks the consumed token is an identifier. -/
def id_token (p : Parser) : Except ParsingError (String × Span) × Parser :=
  let (tok, p') := p.advance
  match tok.kind with
  | .IdentifierLiteral id => (.ok (id, tok.span), p')
  | _ => (.error ⟨"Expected identifier.", tok.span⟩, p')

/-- `fn number(&mut self)`: advance, then require a number literal. -/
def number (p : Parser) : Except ParsingError AstNode × Parser :=
  let (tok, p') := p.advance
  match tok.kind with
  | .NumberLiteral n =>
      (.ok (AstNode.new_expression (.Constant (.Number n)) tok.span), p')
  | _ => (.error ⟨"Expected a NumberLiteral.", tok.span⟩, p')

/-- `fn string(&mut self)`: advance, then require a string literal. -/
def string (p : Parser) : Except ParsingError AstNode × Parser :=
  let (tok, p') := p.advance
  match tok.kind with
  | .StringLiteral s =>
      (.ok (AstNode.new_expression (.Constant (.Str s)) tok.span), p')
  | _ => (.error ⟨"Expected a StringLiteral.", tok.span⟩, p')

end Parser

/-- The body of `fn synchronize(&mut self)`, by recursion on the remaining
token list: consume tokens until current is `{`, `}`, or the token after a
`;` (an `Eof`, padded or explicit, also stops the loop). -/
def syncList (eof : Span) : List Token → Parser
  | [] => ⟨[], eof⟩
  | t :: rest =>
    match t.kind with
    | .Semicolon => ⟨rest, eof⟩
    | .Eof => ⟨rest, eof⟩
    | .LeftBrace => ⟨t :: rest, eof⟩
    | .RightBrace => ⟨t :: rest, eof⟩
    | _ => syncList eof rest

/-- `fn synchronize(&mut self)` from `src/parser.rs`. -/
def Parser.synchronize (p : Parser) : Parser :=
  syncList p.eofSpan p.tokens

/-- The `while self.current.kind == Kind::Comma` loop of
`fn parameter_list`, by recursion on the remaining token list; `acc` is the
`parameters` vector accumulated so far. -/
def paramLoop (eof : Span) (acc : List Token) :
    List Token → Except ParsingError (List Token) × Parser
  | [] => (.ok acc, ⟨[], eof⟩)
  | t :: rest =>
    if t.kind = .Comma then
      match rest with
      | [] => (.error ⟨"Expected parameter name.", eof⟩, ⟨[], eof⟩)
      | param :: rest2 =>
        match param.kind with
        | .IdentifierLiteral _ => paramLoop eof (acc ++ [param]) rest2
        | _ => (.error ⟨"Expected parameter name.", param.span⟩, ⟨rest2, eof⟩)
    else (.ok acc, ⟨t :: rest, eof⟩)

/-- `fn parameter_list(&mut self)`: push `advance()` unconditionally as the
first parameter, then loop over `, name` pairs. -/
def Parser.parameter_list (p : Parser) :
    Except ParsingError (List Token) × Parser :=
  let (first, p1) := p.advance
  paramLoop p.eofSpan [first] p1.tokens

/-- Result type of a fueled grammar rule: `none` when the fuel ran out,
otherwise the Rust `Result` plus the parser state it left behind. -/
abbrev PRes (α : Type) := Option (Except ParsingError α × Parser)

/-- Sequencing of fueled rules: the Rust `?` operator (errors propagate
together with the state at the failure). -/
def pbind {α β : Type} (x : PRes α) (f : α → Parser → PRes β) : PRes β :=
  match x with
  | none => none
  | some (.error e, p) => some (.error e, p)
  | some (.ok a, p) => f a p

/-- Sequencing of an unfueled step (`eat`, `id_token`, …) into a fueled
rule: the Rust `?` operator. -/
def ebind {α β : Type} (x : Except ParsingError α × Parser)
    (f : α → Parser → PRes β) : PRes β :=
  match x with
  | (.error e, p) => some (.error e, p)
  | (.ok a, p) => f a p

/-- A rule returning `Ok`. -/
def pok {α : Type} (a : α) (p : Parser) : PRes α := some (.ok a, p)

/-- A rule returning `Err`. -/
def perr {α : Type} (e : ParsingError) (p : Parser) : PRes α :=
  some (.error e, p)

mutual

/-- `fn expression(&mut self)`: delegates to `assignment`. -/
def expression : Nat → Parser → PRes AstNode
  | 0, _ => none
  | fuel + 1, p => assignment fuel p

/-- `fn assignment(&mut self)`: right-associative via self-recursion. -/
def assignment : Nat → Parser → PRes AstNode
  | 0, _ => none
  | fuel + 1, p =>
    pbind (logic_or fuel p) fun node p1 =>
    if p1.current.kind = .Equal then
      let (operator, p2) := p1.advance
      pbind (assignment fuel p2) fun rvalue p3 =>
      pok (AstNode.new_expression (.Assignment node operator rvalue)
            (Span.merge [node.span, operator.span, rvalue.span])) p3
    else
      pok node p1

/-- `fn logic_or(&mut self)`: delegates to `logic_and`. -/
def logic_or : Nat → Parser → PRes AstNode
  | 0, _ => none
  | fuel + 1, p => logic_and fuel p

/-- `fn logic_and(&mut self)`: delegates to `equality`. -/
def logic_and : Nat → Parser → PRes AstNode
  | 0, _ => none
  | fuel + 1, p => equality fuel p

/-- The `==`/`!=` folding loop of `fn equality`. -/
def equalityLoop : Nat → AstNode → Parser → PRes AstNode
  | 0, _, _ => none
  | fuel + 1, node, p =>
    match p.current.kind with
    | .EqualEqual | .BangEqual =>
      let (operator, p1) := p.advance
      pbind (comparison fuel p1) fun right p2 =>
      equalityLoop fuel
        (AstNode.new_expression (.Binary node operator right)
          (Span.merge [node.span, operator.span, right.span])) p2
    | _ => pok node p

/-- `fn equality(&mut self)`. -/
def equality : Nat → Parser → PRes AstNode
  | 0, _ => none
  | fuel + 1, p =>
    pbind (comparison fuel p) fun node p1 =>
    equalityLoop fuel node p1

/-- The `<`/`<=`/`>`/`>=` folding loop of `fn comparison`. -/
def comparisonLoop : Nat → AstNode → Parser → PRes AstNode
  | 0, _, _ => none
  | fuel + 1, node, p =>
    match p.current.kind with
    | .Less | .LessEqual | .Greater | .GreaterEqual =>
      let (operator, p1) := p.advance
      pbind (addition fuel p1) fun right p2 =>
      comparisonLoop fuel
        (AstNode.new_expression (.Binary node operator right)
          (Span.merge [node.span, operator.span, right.span])) p2
    | _ => pok node p

/-- `fn comparison(&mut self)`. -/
def comparison : Nat → Parser → PRes AstNode
  | 0, _ => none
  | fuel + 1, p =>
    pbind (addition fuel p) fun node p1 =>
    comparisonLoop fuel node p1

/-- The `+`/`-` folding loop of `fn addition`. -/
def additionLoop : Nat → AstNode → Parser → PRes AstNode
  | 0, _, _ => none
  | fuel + 1, node, p =>
    if p.current.kind = .Plus ∨ p.current.kind = .Minus then
      let (operator, p1) := p.advance
      pbind (multiplication fuel p1) fun right p2 =>
      additionLoop fuel
        (AstNode.new_expression (.Binary node operator right)
          (Span.merge [node.span, operator.span, right.span])) p2
    else
      pok node p

/-- `fn addition(&mut self)`. -/
def addition : Nat → Parser → PRes AstNode
  | 0, _ => none
  | fuel + 1, p =>
    pbind (multiplication fuel p) fun node p1 =>
    additionLoop fuel node p1

/-- The `*`/`/` folding loop of `fn multiplication`. -/
def multiplicationLoop : Nat → AstNode → Parser → PRes AstNode
  | 0, _, _ => none
  | fuel + 1, node, p =>
    if p.current.kind = .Star ∨ p.current.kind = .Slash then
      let (operator, p1) := p.advance
      pbind (unary fuel p1) fun right p2 =>
      multiplicationLoop fuel
        (AstNode.new_expression (.Binary node operator right)
          (Span.merge [node.span, operator.span, right.span])) p2
    else
      pok node p

/-- `fn multiplication(&mut self)`. -/
def multiplication : Nat → Parser → PRes AstNode
  | 0, _ => none
  | fuel + 1, p =>
    pbind (unary fuel p) fun node p1 =>
    multiplicationLoop fuel node p1

/-- `fn unary(&mut self)`: prefix `-`/`!`; the resulting span starts one
offset before the operand's span. -/
def unary : Nat → Parser → PRes AstNode
  | 0, _ => none
  | fuel + 1, p =>
    match p.current.kind with
    | .Minus | .Bang =>
      let (operator, p1) := p.advance
      pbind (unary fuel p1) fun e p2 =>
      pok (AstNode.new_expression (.Unary operator e)
            (Span.new (e.span.start - 1) e.span.stop)) p2
    | _ => call fuel p

/-- The comma loop of `fn argument_list`. -/
def argLoop : Nat → List AstNode → Parser → PRes (List AstNode)
  | 0, _, _ => none
  | fuel + 1, acc, p =>
    if p.current.kind = .Comma then
      let (_, p1) := p.advance
      pbind (expression fuel p1) fun a p2 =>
      argLoop fuel (acc ++ [a]) p2
    else
      pok acc p

/-- `fn argument_list(&mut self)`. -/
def argument_list : Nat → Parser → PRes (List AstNode)
  | 0, _ => none
  | fuel + 1, p =>
    pbind (expression fuel p) fun a p1 =>
    argLoop fuel [a] p1

/-- `fn call(&mut self)`: a primary, optionally followed by one argument
list (the result is returned without looking for a further `(`). -/
def call : Nat → Parser → PRes AstNode
  | 0, _ => none
  | fuel + 1, p =>
    pbind (primary fuel p) fun prim p1 =>
    if p1.current.kind = .LeftParen then
      let (_, p2) := p1.advance
      let argsRes : PRes (List AstNode) :=
        match p2.current.kind with
        | .RightParen => pok [] p2
        | _ => argument_list fuel p2
      pbind argsRes fun arguments p3 =>
      ebind (p3.eat .RightParen "Expected ')' after argument list.") fun rparen p4 =>
      pok (AstNode.new_expression (.Call prim arguments)
            (Span.merge [prim.span, rparen.span])) p4
    else
      pok prim p1

/-- `fn primary(&mut self)`. -/
def primary : Nat → Parser → PRes AstNode
  | 0, _ => none
  | fuel + 1, p =>
    match p.current.kind with
    | .LeftParen =>
      let (lparen, p1) := p.advance
      pbind (expression fuel p1) fun e p2 =>
      ebind (p2.eat .RightParen "Expected ')' after expression.") fun rparen p3 =>
      pok (AstNode.new_ast_node e
            (Span.merge [lparen.span, e.span, rparen.span])) p3
    | .IdentifierLiteral name =>
      let (tok, p1) := p.advance
      pok (AstNode.new_expression (.Variable name) tok.span) p1
    | .NumberLiteral _ => ebind p.number pok
    | .StringLiteral _ => ebind p.string pok
    | .True =>
      let (tok, p1) := p.advance
      pok (AstNode.new_expression (.Constant (.Bool true)) tok.span) p1
    | .False =>
      let (tok, p1) := p.advance
      pok (AstNode.new_expression (.Constant (.Bool false)) tok.span) p1
    | .Nil =>
      let (literal, p1) := p.advance
      pok (AstNode.new_expression (.Constant .Nil) literal.span) p1
    | _ => perr ⟨"Expected primary expression.", p.current.span⟩ p

end

/-- `fn var_declaration(&mut self)`. -/
def var_declaration : Nat → Parser → PRes AstNode
  | 0, _ => none
  | fuel + 1, p =>
    let (keyword, p1) := p.advance
    ebind p1.id_token fun ns p2 =>
    let name := ns.1
    let finish : Option AstNode → Parser → PRes AstNode := fun initializer p3 =>
      ebind (p3.eat .Semicolon "Expected ';' after declaration.") fun semi p4 =>
      pok (AstNode.new_statement (.Declaration name initializer)
            (Span.merge [keyword.span, semi.span])) p4
    if p2.current.kind = .Equal then
      let (_, p3) := p2.advance
      pbind (expression fuel p3) fun initializer p4 =>
      finish (some initializer) p4
    else
      finish none p2

/-- `fn expression_statement(&mut self)`. -/
def expression_statement : Nat → Parser → PRes AstNode
  | 0, _ => none
  | fuel + 1, p =>
    pbind (expression fuel p) fun e p1 =>
    ebind (p1.eat .Semicolon "Expected ';' after expression") fun semi p2 =>
    pok (AstNode.new_statement (.Expression e)
          (Span.merge [e.span, semi.span])) p2

/-- `fn return_statement(&mut self)`: note the resulting span is
`merge(keyword, value)` (or the keyword alone), computed before the
terminating `;` is eaten, so it does not include the `;`. -/
def return_statement : Nat → Parser → PRes AstNode
  | 0, _ => none
  | fuel + 1, p =>
    let (keyword, p1) := p.advance
    let finish : Option AstNode → Span → Parser → PRes AstNode :=
      fun value span p2 =>
        ebind (p2.eat .Semicolon "Expected ';' after return statement.") fun _ p3 =>
        pok (AstNode.new_statement (.Return value) span) p3
    match p1.current.kind with
    | .Semicolon => finish none keyword.span p1
    | _ =>
      pbind (expression fuel p1) fun e p2 =>
      finish (some e) (Span.merge [keyword.span, e.span]) p2

/-- `fn print_statement(&mut self)`. -/
def print_statement : Nat → Parser → PRes AstNode
  | 0, _ => none
  | fuel + 1, p =>
    let (keyword, p1) := p.advance
    pbind (expression fuel p1) fun e p2 =>
    ebind (p2.eat .Semicolon "Expected ';' after print statement") fun semi p3 =>
    pok (AstNode.new_statement (.Print e)
          (Span.merge [keyword.span, e.span, semi.span])) p3

mutual


/-- `fn declaration(&mut self)`: dispatch on `current.kind`. -/
def declaration : Nat → Parser → PRes AstNode
  | 0, _ => none
  | fuel + 1, p =>
    match p.current.kind with
    | .Var => var_declaration fuel p
    | .Fun =>
      let (_, p1) := p.advance
      function fuel p1
    | _ => statement fuel p

/-- `fn function(&mut self)` (the `fun` keyword is consumed by the caller). -/
def function : Nat → Parser → PRes AstNode
  | 0, _ => none
  | fuel + 1, p =>
    ebind p.id_token fun ns p1 =>
    let name := ns.1
    let name_span := ns.2
    ebind (p1.eat .LeftParen "Expected '(' after function name") fun _ p2 =>
    let paramsRes : Except ParsingError (List Token) × Parser :=
      match p2.current.kind with
      | .RightParen => (.ok [], p2)
      | .IdentifierLiteral _ => p2.parameter_list
      | _ => (.error ⟨"Expected parameter list or ')'.", p2.current.span⟩, p2)
    ebind paramsRes fun parameters p3 =>
    ebind (p3.eat .RightParen "Expected ')' after formal parameter list") fun _ p4 =>
    pbind (block_statement fuel p4) fun body p5 =>
    pok (AstNode.new_statement (.FunDeclaration name parameters body)
          (Span.merge [name_span, body.span])) p5

/-- `fn statement(&mut self)`: dispatch on `current.kind`. -/
def statement : Nat → Parser → PRes AstNode
  | 0, _ => none
  | fuel + 1, p =>
    match p.current.kind with
    | .Print => print_statement fuel p
    | .LeftBrace => block_statement fuel p
    | .If => if_statement fuel p
    | .While => while_statement fuel p
    | .For => for_statement fuel p
    | .Return => return_statement fuel p
    | _ => expression_statement fuel p

/-- `fn for_statement(&mut self)`. -/
def for_statement : Nat → Parser → PRes AstNode
  | 0, _ => none
  | fuel + 1, p =>
    let (keyword, p1) := p.advance
    ebind (p1.eat .LeftParen "Expected '(' after 'for.'") fun _ p2 =>
    let initRes : PRes (Option AstNode) :=
      match p2.current.kind with
      | .Var => pbind (var_declaration fuel p2) fun d p3 => pok (some d) p3
      | .Semicolon =>
        let (_, p3) := p2.advance
        pok none p3
      | _ => pbind (expression_statement fuel p2) fun d p3 => pok (some d) p3
    pbind initRes fun initializer p3 =>
    let condRes : PRes (Option AstNode) :=
      match p3.current.kind with
      | .Semicolon => pok none p3
      | _ => pbind (expression fuel p3) fun c p4 => pok (some c) p4
    pbind condRes fun condition p4 =>
    ebind (p4.eat .Semicolon "Expected ';' after for condition.") fun _ p5 =>
    let updRes : PRes (Option AstNode) :=
      match p5.current.kind with
      | .RightParen => pok none p5
      | _ => pbind (expression fuel p5) fun u p6 => pok (some u) p6
    pbind updRes fun update p6 =>
    ebind (p6.eat .RightParen "Expected ')' before for block.") fun _ p7 =>
    pbind (statement fuel p7) fun block p8 =>
    pok (AstNode.new_statement (.For initializer condition update block)
          (Span.merge [keyword.span, block.span])) p8

/-- `fn while_statement(&mut self)`. -/
def while_statement : Nat → Parser → PRes AstNode
  | 0, _ => none
  | fuel + 1, p =>
    let (keyword, p1) := p.advance
    ebind (p1.eat .LeftParen "Expected '(' after 'while.'") fun _ p2 =>
    pbind (expression fuel p2) fun condition p3 =>
    ebind (p3.eat .RightParen "Expected ')' after while condition.") fun _ p4 =>
    pbind (statement fuel p4) fun block p5 =>
    pok (AstNode.new_statement (.While condition block)
          (Span.merge [keyword.span, block.span])) p5

/-- `fn if_statement(&mut self)`. -/
def if_statement : Nat → Parser → PRes AstNode
  | 0, _ => none
  | fuel + 1, p =>
    let (keyword, p1) := p.advance
    ebind (p1.eat .LeftParen "Expected '(' after 'if.'") fun _ p2 =>
    pbind (expression fuel p2) fun condition p3 =>
    ebind (p3.eat .RightParen "Expected ')' after if condition.") fun _ p4 =>
    pbind (statement fuel p4) fun if_block p5 =>
    let span := Span.merge [keyword.span, if_block.span]
    match p5.current.kind with
    | .Else =>
      let (_, p6) := p5.advance
      pbind (statement fuel p6) fun stmt p7 =>
      pok (AstNode.new_statement (.If condition if_block (some stmt))
            (Span.merge [span, stmt.span])) p7
    | _ =>
      pok (AstNode.new_statement (.If condition if_block none) span) p5

/-- The declaration loop of `fn block_statement`. -/
def blockLoop : Nat → List AstNode → Parser → PRes (List AstNode)
  | 0, _, _ => none
  | fuel + 1, acc, p =>
    match p.current.kind with
    | .RightBrace => pok acc p
    | .Eof => pok acc p
    | _ =>
      pbind (declaration fuel p) fun d p1 =>
      blockLoop fuel (acc ++ [d]) p1

/-- `fn block_statement(&mut self)`. -/
def block_statement : Nat → Parser → PRes AstNode
  | 0, _ => none
  | fuel + 1, p =>
    let (lbrace, p1) := p.advance
    pbind (blockLoop fuel [] p1) fun declarations p2 =>
    ebind (p2.eat .RightBrace "Expected '\x7d' after block statement") fun rbrace p3 =>
    pok (AstNode.new_statement (.Block declarations rbrace)
          (Span.merge [lbrace.span, rbrace.span])) p3

end

/-- The `while self.current.kind != Kind::Eof` loop of `fn parse_program`,
with the `program` and `errors` vectors accumulated so far. -/
def parseProgramLoop :
    Nat → Parser → List AstNode → List ParsingError →
      Option (List AstNode × List ParsingError × Parser)
  | 0, _, _, _ => none
  | fuel + 1, p, program, errors =>
    if p.current.kind = .Eof then
      some (program, errors, p)
    else
      match declaration fuel p with
      | none => none
      | some (.ok decl, p1) =>
        parseProgramLoop fuel p1 (program ++ [decl]) errors
      | some (.error err, p1) =>
        parseProgramLoop fuel p1.synchronize program (errors ++ [err])

/-- `fn parse_program(&mut self)`: run the declaration loop, then return
the program if no error was recorded, the error list otherwise. -/
def parse_program (fuel : Nat) (p : Parser) :
    Option (Except (List ParsingError) (List AstNode)) :=
  match parseProgramLoop fuel p [] [] with
  | none => none
  | some (program, errors, _) =>
    some (if errors.isEmpty then .ok program else .error errors)

/-! Concrete token streams, as the scanner produces them from the quoted
source texts (offsets are byte offsets into the text). -/

/-- The token stream of `var ; var ;`. -/
def varSemiVarSemiInput : Parser :=
  ⟨[⟨.Var, ⟨0, 3⟩⟩, ⟨.Semicolon, ⟨4, 5⟩⟩, ⟨.Var, ⟨6, 9⟩⟩, ⟨.Semicolon, ⟨10, 11⟩⟩],
    ⟨11, 11⟩⟩

/-- The token stream of `var x = 1;`. -/
def varXInput : Parser :=
  ⟨[⟨.Var, ⟨0, 3⟩⟩, ⟨.IdentifierLiteral "x", ⟨4, 5⟩⟩, ⟨.Equal, ⟨6, 7⟩⟩,
    ⟨.NumberLiteral "1", ⟨8, 9⟩⟩, ⟨.Semicolon, ⟨9, 10⟩⟩], ⟨10, 10⟩⟩

/-- The AST node parsed from `var x = 1;`. -/
def varXNode : AstNode :=
  .stmt (.Declaration "x" (some (.expr (.Constant (.Number "1")) ⟨8, 9⟩))) ⟨0, 10⟩

/-- The token stream of `return 1;`. -/
def retInput : Parser :=
  ⟨[⟨.Return, ⟨0, 6⟩⟩, ⟨.NumberLiteral "1", ⟨7, 8⟩⟩, ⟨.Semicolon, ⟨8, 9⟩⟩], ⟨9, 9⟩⟩

/-- The token stream of `fun f() {}`. -/
def funFInput : Parser :=
  ⟨[⟨.Fun, ⟨0, 3⟩⟩, ⟨.IdentifierLiteral "f", ⟨4, 5⟩⟩, ⟨.LeftParen, ⟨5, 6⟩⟩,
    ⟨.RightParen, ⟨6, 7⟩⟩, ⟨.LeftBrace, ⟨8, 9⟩⟩, ⟨.RightBrace, ⟨10, 11⟩⟩],
    ⟨11, 11⟩⟩

/-- The token stream of `1 - 2 - 3`. -/
def sub123Input : Parser :=
  ⟨[⟨.NumberLiteral "1", ⟨0, 1⟩⟩, ⟨.Minus, ⟨2, 3⟩⟩, ⟨.NumberLiteral "2", ⟨4, 5⟩⟩,
    ⟨.Minus, ⟨6, 7⟩⟩, ⟨.NumberLiteral "3", ⟨8, 9⟩⟩], ⟨9, 9⟩⟩

/-- The expression parsed from `1 - 2 - 3`: `Binary(Binary(1, -, 2), -, 3)`. -/
def sub123Node : AstNode :=
  .expr (.Binary
    (.expr (.Binary (.expr (.Constant (.Number "1")) ⟨0, 1⟩) ⟨.Minus, ⟨2, 3⟩⟩
      (.expr (.Constant (.Number "2")) ⟨4, 5⟩)) ⟨0, 5⟩)
    ⟨.Minus, ⟨6, 7⟩⟩ (.expr (.Constant (.Number "3")) ⟨8, 9⟩)) ⟨0, 9⟩

/-- The token stream of `a = b = 3`. -/
def asgInput : Parser :=
  ⟨[⟨.IdentifierLiteral "a", ⟨0, 1⟩⟩, ⟨.Equal, ⟨2, 3⟩⟩,
    ⟨.IdentifierLiteral "b", ⟨4, 5⟩⟩, ⟨.Equal, ⟨6, 7⟩⟩,
    ⟨.NumberLiteral "3", ⟨8, 9⟩⟩], ⟨9, 9⟩⟩

/-- The expression parsed from `a = b = 3`:
`Assignment(a, =, Assignment(b, =, 3))`. -/
def asgNode : AstNode :=
  .expr (.Assignment (.expr (.Variable "a") ⟨0, 1⟩) ⟨.Equal, ⟨2, 3⟩⟩
    (.expr (.Assignment (.expr (.Variable "b") ⟨4, 5⟩) ⟨.Equal, ⟨6, 7⟩⟩
      (.expr (.Constant (.Number "3")) ⟨8, 9⟩)) ⟨4, 9⟩)) ⟨0, 9⟩

/-- The token stream of `f()()`. -/
def callCallInput : Parser :=
  ⟨[⟨.IdentifierLiteral "f", ⟨0, 1⟩⟩, ⟨.LeftParen, ⟨1, 2⟩⟩, ⟨.RightParen, ⟨2, 3⟩⟩,
    ⟨.LeftParen, ⟨3, 4⟩⟩, ⟨.RightParen, ⟨4, 5⟩⟩], ⟨5, 5⟩⟩

/-- The expression the call tier parses from `f()()`: only `f()`. -/
def fCallNode : AstNode :=
  .expr (.Call (.expr (.Variable "f") ⟨0, 1⟩) []) ⟨0, 3⟩

/-- A one-token stream holding a lone `;`. -/
def semiInput : Parser := ⟨[⟨.Semicolon, ⟨4, 5⟩⟩], ⟨5, 5⟩⟩

/-- C1: the claim is false on the code.  `var ; var ;` produces exactly one
"Expected identifier." error, not two: `id_token` has already consumed the
first `;` when it fails, so `synchronize` discards the second `var` and
consumes the second `;`, skipping the second malformed statement. -/
theorem C1_counterexample :
    parse_program 20 varSemiVarSemiInput
      = some (.error [⟨"Expected identifier.", ⟨4, 5⟩⟩]) ∧
    ¬ (∃ e1 e2 : ParsingError,
        parse_program 20 varSemiVarSemiInput = some (.error [e1, e2])) := by
  refine ⟨rfl, ?_⟩
  rintro ⟨e1, e2, h⟩
  have h' : some (Except.error (α := List AstNode)
      [(⟨"Expected identifier.", ⟨4, 5⟩⟩ : ParsingError)])
      = some (.error [e1, e2]) := h
  simp at h'

/-- C1 (amended): for the input `var ; var ;`, `parse_program` produces
exactly one error, with message "Expected identifier." and the span of the
first `;`. -/
theorem C1_single_error :
    parse_program 20 varSemiVarSemiInput
      = some (.error [⟨"Expected identifier.", ⟨4, 5⟩⟩]) := rfl

/-- C3: `parse_program` returns the loop's full node list exactly when the
loop recorded zero errors; otherwise it returns the complete, non-empty
accumulated error list, never a partial tree alongside errors. -/
theorem C3_result_iff_no_errors (fuel : Nat) (p : Parser)
    (program : List AstNode) (errors : List ParsingError) (st : Parser)
    (h : parseProgramLoop fuel p [] [] = some (program, errors, st)) :
    (parse_program fuel p = some (.ok program) ↔ errors = []) ∧
    (errors ≠ [] → parse_program fuel p = some (.error errors)) ∧
    (∀ errs, parse_program fuel p = some (.error errs) →
      errs = errors ∧ errs ≠ []) := by
  simp only [parse_program, h]
  cases errors with
  | nil => simp
  | cons e es =>
    refine ⟨by simp, by simp, ?_⟩
    intro errs herrs
    simp only [List.isEmpty_cons, Bool.false_eq_true, if_false,
      Option.some.injEq, Except.error.injEq] at herrs
    subst herrs
    exact ⟨rfl, by simp⟩

/-- C3 witness: a successful parse (`var x = 1;`) and a failing parse
(`var ; var ;`), concretely. -/
theorem C3_witness :
    parse_program 20 varXInput = some (.ok [varXNode]) ∧
    parse_program 20 varSemiVarSemiInput
      = some (.error [⟨"Expected identifier.", ⟨4, 5⟩⟩]) := by
  constructor
  · exact (C3_result_iff_no_errors 20 varXInput [varXNode] [] ⟨[], ⟨10, 10⟩⟩
      rfl).1.mpr rfl
  · exact (C3_result_iff_no_errors 20 varSemiVarSemiInput []
      [⟨"Expected identifier.", ⟨4, 5⟩⟩] ⟨[], ⟨11, 11⟩⟩ rfl).2.1 (by simp)

/-- C4: if the current token's kind equals the expected kind, `eat` consumes
and returns it exactly like `advance`; otherwise it fails with a
`ParsingError` carrying the current token's span and the caller's message,
leaving the state unchanged. -/
theorem C4_eat_contract (p : Parser) (k : Kind) (m : String) :
    (p.current.kind = k →
      p.eat k m = (.ok (p.advance).1, (p.advance).2)) ∧
    (p.current.kind ≠ k →
      p.eat k m = (.error ⟨m, p.current.span⟩, p)) := by
  constructor <;> intro h <;> simp [Parser.eat, Parser.advance, h]

/-- C4 witness: both branches of the `eat` contract on a lone `;` token. -/
theorem C4_eat_contract_witness :
    semiInput.eat .Semicolon "m" = (.ok ⟨.Semicolon, ⟨4, 5⟩⟩, ⟨[], ⟨5, 5⟩⟩) ∧
    semiInput.eat .Comma "m" = (.error ⟨"m", ⟨4, 5⟩⟩, semiInput) :=
  ⟨(C4_eat_contract semiInput .Semicolon "m").1 rfl,
   (C4_eat_contract semiInput .Comma "m").2 (fun h => Kind.noConfusion h)⟩

/-- C8: `logic_or` delegates to `logic_and` and `logic_and` to `equality`,
consuming no tokens and building no nodes: with the fuel discipline of the
embedding (each tier spends one unit), `logic_or` at fuel `n + 2` is
extensionally `equality` at fuel `n` — same result, same final state. -/
theorem C8_logic_tiers_delegate :
    (∀ (n : Nat) (p : Parser), logic_or (n + 1) p = logic_and n p) ∧
    (∀ (n : Nat) (p : Parser), logic_and (n + 1) p = equality n p) ∧
    (∀ (n : Nat) (p : Parser), logic_or (n + 2) p = equality n p) :=
  ⟨fun _ _ => rfl, fun _ _ => rfl, fun _ _ => rfl⟩

/-- C10: when the stream's current token is not an identifier, `id_token`
consumes it before failing: the error carries the consumed token's span and
the state has advanced past it (strictly fewer tokens remain) — whereas
`eat` leaves the state unchanged on failure. -/
theorem C10_id_token_consumes (p : Parser) (t : Token) (ts : List Token)
    (h : p.tokens = t :: ts)
    (hid : ∀ n, t.kind ≠ Kind.IdentifierLiteral n) :
    p.id_token = (.error ⟨"Expected identifier.", t.span⟩, ⟨ts, p.eofSpan⟩) ∧
    (⟨ts, p.eofSpan⟩ : Parser) = (p.advance).2 ∧
    (p.id_token).2.tokens.length < p.tokens.length ∧
    (∀ (k : Kind) (m : String), p.current.kind ≠ k → (p.eat k m).2 = p) := by
  have h1 : p.id_token
      = (.error ⟨"Expected identifier.", t.span⟩, ⟨ts, p.eofSpan⟩) := by
    obtain ⟨tk, tsp⟩ := t
    cases tk
    case IdentifierLiteral id => exact absurd rfl (hid id)
    all_goals simp_all [Parser.id_token, Parser.advance, Parser.current]
  refine ⟨h1, by simp [Parser.advance, Parser.current, h], ?_, ?_⟩
  · rw [h1, h]
    simp
  · intro k m hk
    simp [Parser.eat, hk]

/-- C10 witness: `id_token` on a lone `;` consumes it and fails, while a
failing `eat` leaves the same state untouched. -/
theorem C10_id_token_consumes_witness :
    semiInput.id_token
      = (.error ⟨"Expected identifier.", ⟨4, 5⟩⟩, ⟨[], ⟨5, 5⟩⟩) ∧
    (⟨[], ⟨5, 5⟩⟩ : Parser) = (semiInput.advance).2 ∧
    (semiInput.id_token).2.tokens.length < semiInput.tokens.length ∧
    (∀ (k : Kind) (m : String),
      semiInput.current.kind ≠ k → (semiInput.eat k m).2 = semiInput) :=
  C10_id_token_consumes semiInput ⟨.Semicolon, ⟨4, 5⟩⟩ [] rfl
    (fun _ h => Kind.noConfusion h)

/-- C2: the claim is false on the code.  Parsing `return 1;` produces a
node whose span is `[0, 8)` — `merge(keyword.span, value.span)` is computed
before the `;` (span `[8, 9)`) is eaten, so the span does not cover the
terminating `;`. -/
theorem C2_counterexample :
    return_statement 20 retInput
      = some (.ok (.stmt (.Return (some (.expr (.Constant (.Number "1"))
          ⟨7, 8⟩))) ⟨0, 8⟩), ⟨[], ⟨9, 9⟩⟩) ∧
    ¬ Span.covers ⟨0, 8⟩ ⟨8, 9⟩ :=
  ⟨rfl, fun hcov => Nat.not_succ_le_self 8 hcov.2⟩

/-- C2 (amended): rules merge their result span from constituent token and
sub-node spans, and for `var x = 1;` the span covers `var` through `;`; but
the invariant is not universal: a return statement's span excludes its
terminating `;`, and a function declaration's span starts at the function
name, excluding the `fun` keyword (shown on `return 1;` and `fun f() {}`,
where the body's closing brace is covered but `fun` is not). -/
theorem C2_span_coverage :
    (var_declaration 20 varXInput
      = some (.ok varXNode, ⟨[], ⟨10, 10⟩⟩) ∧
      Span.covers ⟨0, 10⟩ ⟨0, 3⟩ ∧ Span.covers ⟨0, 10⟩ ⟨9, 10⟩) ∧
    (return_statement 20 retInput
      = some (.ok (.stmt (.Return (some (.expr (.Constant (.Number "1"))
          ⟨7, 8⟩))) ⟨0, 8⟩), ⟨[], ⟨9, 9⟩⟩) ∧
      Span.covers ⟨0, 8⟩ ⟨0, 6⟩ ∧ ¬ Span.covers ⟨0, 8⟩ ⟨8, 9⟩) ∧
    (declaration 20 funFInput
      = some (.ok (.stmt (.FunDeclaration "f" []
          (.stmt (.Block [] ⟨.RightBrace, ⟨10, 11⟩⟩) ⟨8, 11⟩)) ⟨4, 11⟩),
          ⟨[], ⟨11, 11⟩⟩) ∧
      Span.covers ⟨4, 11⟩ ⟨10, 11⟩ ∧ ¬ Span.covers ⟨4, 11⟩ ⟨0, 3⟩) := by
  refine ⟨⟨rfl, ?_, ?_⟩, ⟨rfl, ?_, ?_⟩, rfl, ?_, ?_⟩
  all_goals simp only [Span.covers]
  all_goals decide

/-- When the comma loop of `parameter_list` succeeds, every token it adds on
top of an all-identifier accumulator is itself an identifier (the loop
checks each post-comma token's kind before pushing it). -/
lemma paramLoop_ok_idents (eof : Span) :
    ∀ (N : Nat) (ts acc params : List Token) (p' : Parser),
      ts.length ≤ N →
      (∀ t ∈ acc, ∃ n, t.kind = Kind.IdentifierLiteral n) →
      paramLoop eof acc ts = (.ok params, p') →
      ∀ t ∈ params, ∃ n, t.kind = Kind.IdentifierLiteral n := by
  intro N
  induction N with
  | zero =>
    intro ts acc params p' hlen hacc heq
    have hts : ts = [] := List.eq_nil_of_length_eq_zero (Nat.le_zero.mp hlen)
    subst hts
    rw [paramLoop.eq_def] at heq
    simp only [Prod.mk.injEq, Except.ok.injEq] at heq
    exact heq.1 ▸ hacc
  | succ N ih =>
    intro ts acc params p' hlen hacc heq
    cases ts with
    | nil =>
      rw [paramLoop.eq_def] at heq
      simp only [Prod.mk.injEq, Except.ok.injEq] at heq
      exact heq.1 ▸ hacc
    | cons t rest =>
      rw [paramLoop.eq_def] at heq
      by_cases hc : t.kind = Kind.Comma
      · cases rest with
        | nil => simp [hc] at heq
        | cons param rest2 =>
          cases hk : param.kind
          all_goals simp only [hc, hk, if_true, reduceIte] at heq
          all_goals try simp at heq
          refine ih rest2 (acc ++ [param]) params p' ?_ ?_ heq
          · simp only [List.length_cons] at hlen
            omega
          · intro u hu
            rcases List.mem_append.mp hu with hu | hu
            · exact hacc u hu
            · rcases List.mem_singleton.mp hu with rfl
              exact ⟨_, hk⟩
      · simp only [hc, if_false, Prod.mk.injEq, Except.ok.injEq] at heq
        exact heq.1 ▸ hacc

/-- C5: every element of a successfully parsed parameter list (entered, as
`function` does, with an identifier as the current token) is an identifier
token, and a non-identifier where the loop requires a parameter name (after
a comma) fails with "Expected parameter name." at that token's span. -/
theorem C5_parameter_names :
    (∀ (p : Parser) (params : List Token) (p' : Parser),
      (∃ n, p.current.kind = Kind.IdentifierLiteral n) →
      p.parameter_list = (.ok params, p') →
      ∀ t ∈ params, ∃ n, t.kind = Kind.IdentifierLiteral n) ∧
    (∀ (p : Parser) (first c t : Token) (rest : List Token),
      p.tokens = first :: c :: t :: rest →
      c.kind = Kind.Comma →
      (∀ n, t.kind ≠ Kind.IdentifierLiteral n) →
      p.parameter_list
        = (.error ⟨"Expected parameter name.", t.span⟩, ⟨rest, p.eofSpan⟩)) := by
  constructor
  · intro p params p' hcur heq
    simp only [Parser.parameter_list] at heq
    refine paramLoop_ok_idents p.eofSpan ((p.advance).2).tokens.length
      ((p.advance).2).tokens [(p.advance).1] params p' le_rfl ?_ heq
    intro u hu
    rcases List.mem_singleton.mp hu with rfl
    exact hcur
  · intro p first c t rest htok hc hid
    obtain ⟨tk, tsp⟩ := t
    cases tk
    case IdentifierLiteral id => exact absurd rfl (hid id)
    all_goals
      simp [Parser.parameter_list, Parser.advance, Parser.current, htok,
        paramLoop, hc]

/-- C5 witness: `x, y` parses to an all-identifier parameter list, while
`x, 1` fails with "Expected parameter name." at the `1`. -/
theorem C5_parameter_names_witness :
    (∀ t ∈ [(⟨.IdentifierLiteral "x", ⟨6, 7⟩⟩ : Token),
            ⟨.IdentifierLiteral "y", ⟨9, 10⟩⟩],
      ∃ n, t.kind = Kind.IdentifierLiteral n) ∧
    (⟨[⟨.IdentifierLiteral "x", ⟨6, 7⟩⟩, ⟨.Comma, ⟨7, 8⟩⟩,
       ⟨.NumberLiteral "1", ⟨9, 10⟩⟩], ⟨10, 10⟩⟩ : Parser).parameter_list
      = (.error ⟨"Expected parameter name.", ⟨9, 10⟩⟩, ⟨[], ⟨10, 10⟩⟩) :=
  ⟨C5_parameter_names.1
      ⟨[⟨.IdentifierLiteral "x", ⟨6, 7⟩⟩, ⟨.Comma, ⟨7, 8⟩⟩,
        ⟨.IdentifierLiteral "y", ⟨9, 10⟩⟩], ⟨10, 10⟩⟩
      [⟨.IdentifierLiteral "x", ⟨6, 7⟩⟩, ⟨.IdentifierLiteral "y", ⟨9, 10⟩⟩]
      ⟨[], ⟨10, 10⟩⟩ ⟨"x", rfl⟩ rfl,
   C5_parameter_names.2
      ⟨[⟨.IdentifierLiteral "x", ⟨6, 7⟩⟩, ⟨.Comma, ⟨7, 8⟩⟩,
        ⟨.NumberLiteral "1", ⟨9, 10⟩⟩], ⟨10, 10⟩⟩
      ⟨.IdentifierLiteral "x", ⟨6, 7⟩⟩ ⟨.Comma, ⟨7, 8⟩⟩
      ⟨.NumberLiteral "1", ⟨9, 10⟩⟩ [] rfl rfl
      (fun _ h => Kind.noConfusion h)⟩

/-- When the current token is not `==`/`!=`, the equality loop stops and
returns its accumulated node unchanged. -/
lemma equalityLoop_stop (g : Nat) (node : AstNode) (p : Parser)
    (h : ¬(p.current.kind = Kind.EqualEqual ∨ p.current.kind = Kind.BangEqual)) :
    equalityLoop (g + 1) node p = pok node p := by
  cases hc : p.current.kind <;>
    first
      | exact absurd (Or.inl hc) h
      | exact absurd (Or.inr hc) h
      | simp [equalityLoop, hc]

/-- When the current token is not a comparison operator, the comparison
loop stops and returns its accumulated node unchanged. -/
lemma comparisonLoop_stop (g : Nat) (node : AstNode) (p : Parser)
    (h : ¬(p.current.kind = Kind.Less ∨ p.current.kind = Kind.LessEqual ∨
        p.current.kind = Kind.Greater ∨ p.current.kind = Kind.GreaterEqual)) :
    comparisonLoop (g + 1) node p = pok node p := by
  cases hc : p.current.kind <;>
    first
      | exact absurd (Or.inl hc) h
      | exact absurd (Or.inr (Or.inl hc)) h
      | exact absurd (Or.inr (Or.inr (Or.inl hc))) h
      | exact absurd (Or.inr (Or.inr (Or.inr hc))) h
      | simp [comparisonLoop, hc]

/-- When the current token is not `+`/`-`, the addition loop stops and
returns its accumulated node unchanged. -/
lemma additionLoop_stop (g : Nat) (node : AstNode) (p : Parser)
    (h : ¬(p.current.kind = Kind.Plus ∨ p.current.kind = Kind.Minus)) :
    additionLoop (g + 1) node p = pok node p := by
  rw [additionLoop.eq_def]
  simp [h]

/-- When the current token is not `*`/`/`, the multiplication loop stops
and returns its accumulated node unchanged. -/
lemma multiplicationLoop_stop (g : Nat) (node : AstNode) (p : Parser)
    (h : ¬(p.current.kind = Kind.Star ∨ p.current.kind = Kind.Slash)) :
    multiplicationLoop (g + 1) node p = pok node p := by
  rw [multiplicationLoop.eq_def]
  simp [h]

/-- C6: equal-precedence binary chains associate left — `1 - 2 - 3` parses
to `Binary(Binary(1, -, 2), -, 3)` — and for each of the equality,
comparison, addition and multiplication tiers, one folding step of the
tier's loop places the whole accumulated left context as the left child of
the new Binary node. -/
theorem C6_binary_left_assoc :
    (expression 20 sub123Input = some (.ok sub123Node, ⟨[], ⟨9, 9⟩⟩)) ∧
    (∀ (g : Nat) (node : AstNode) (p : Parser) (right : AstNode) (p' : Parser),
      (p.current.kind = Kind.EqualEqual ∨ p.current.kind = Kind.BangEqual) →
      comparison (g + 1) (p.advance).2 = some (.ok right, p') →
      ¬(p'.current.kind = Kind.EqualEqual ∨ p'.current.kind = Kind.BangEqual) →
      equalityLoop (g + 2) node p
        = some (.ok (AstNode.new_expression (.Binary node (p.advance).1 right)
            (Span.merge [node.span, (p.advance).1.span, right.span])), p')) ∧
    (∀ (g : Nat) (node : AstNode) (p : Parser) (right : AstNode) (p' : Parser),
      (p.current.kind = Kind.Less ∨ p.current.kind = Kind.LessEqual ∨
        p.current.kind = Kind.Greater ∨ p.current.kind = Kind.GreaterEqual) →
      addition (g + 1) (p.advance).2 = some (.ok right, p') →
      ¬(p'.current.kind = Kind.Less ∨ p'.current.kind = Kind.LessEqual ∨
        p'.current.kind = Kind.Greater ∨ p'.current.kind = Kind.GreaterEqual) →
      comparisonLoop (g + 2) node p
        = some (.ok (AstNode.new_expression (.Binary node (p.advance).1 right)
            (Span.merge [node.span, (p.advance).1.span, right.span])), p')) ∧
    (∀ (g : Nat) (node : AstNode) (p : Parser) (right : AstNode) (p' : Parser),
      (p.current.kind = Kind.Plus ∨ p.current.kind = Kind.Minus) →
      multiplication (g + 1) (p.advance).2 = some (.ok right, p') →
      ¬(p'.current.kind = Kind.Plus ∨ p'.current.kind = Kind.Minus) →
      additionLoop (g + 2) node p
        = some (.ok (AstNode.new_expression (.Binary node (p.advance).1 right)
            (Span.merge [node.span, (p.advance).1.span, right.span])), p')) ∧
    (∀ (g : Nat) (node : AstNode) (p : Parser) (right : AstNode) (p' : Parser),
      (p.current.kind = Kind.Star ∨ p.current.kind = Kind.Slash) →
      unary (g + 1) (p.advance).2 = some (.ok right, p') →
      ¬(p'.current.kind = Kind.Star ∨ p'.current.kind = Kind.Slash) →
      multiplicationLoop (g + 2) node p
        = some (.ok (AstNode.new_expression (.Binary node (p.advance).1 right)
            (Span.merge [node.span, (p.advance).1.span, right.span])), p')) := by
  refine ⟨rfl, ?_, ?_, ?_, ?_⟩
  · intro g node p right p' h1 h2 h3
    rcases h1 with hc | hc
    all_goals
      rw [equalityLoop.eq_def]
      simp only [hc]
      rw [h2]
      simp only [pbind]
      rw [equalityLoop_stop g _ p' h3]
      rfl
  · intro g node p right p' h1 h3 h4
    rcases h1 with hc | hc | hc | hc
    all_goals
      rw [comparisonLoop.eq_def]
      simp only [hc]
      rw [h3]
      simp only [pbind]
      rw [comparisonLoop_stop g _ p' h4]
      rfl
  · intro g node p right p' h1 h2 h3
    rw [additionLoop.eq_def]
    simp only [h1, if_true, reduceIte]
    rw [h2]
    simp only [pbind]
    rw [additionLoop_stop g _ p' h3]
    rfl
  · intro g node p right p' h1 h2 h3
    rw [multiplicationLoop.eq_def]
    simp only [h1, if_true, reduceIte]
    rw [h2]
    simp only [pbind]
    rw [multiplicationLoop_stop g _ p' h3]
    rfl

/-- C6 witness: one folding step of each tier's loop on a concrete state
sitting at the operator, with the left context `1` and operand `2`. -/
theorem C6_binary_left_assoc_witness :
    equalityLoop 12 (.expr (.Constant (.Number "1")) ⟨0, 1⟩)
        ⟨[⟨.EqualEqual, ⟨2, 3⟩⟩, ⟨.NumberLiteral "2", ⟨4, 5⟩⟩], ⟨5, 5⟩⟩
      = some (.ok (.expr (.Binary (.expr (.Constant (.Number "1")) ⟨0, 1⟩)
          ⟨.EqualEqual, ⟨2, 3⟩⟩ (.expr (.Constant (.Number "2")) ⟨4, 5⟩)) ⟨0, 5⟩),
          ⟨[], ⟨5, 5⟩⟩) ∧
    comparisonLoop 12 (.expr (.Constant (.Number "1")) ⟨0, 1⟩)
        ⟨[⟨.Less, ⟨2, 3⟩⟩, ⟨.NumberLiteral "2", ⟨4, 5⟩⟩], ⟨5, 5⟩⟩
      = some (.ok (.expr (.Binary (.expr (.Constant (.Number "1")) ⟨0, 1⟩)
          ⟨.Less, ⟨2, 3⟩⟩ (.expr (.Constant (.Number "2")) ⟨4, 5⟩)) ⟨0, 5⟩),
          ⟨[], ⟨5, 5⟩⟩) ∧
    additionLoop 12 (.expr (.Constant (.Number "1")) ⟨0, 1⟩)
        ⟨[⟨.Minus, ⟨2, 3⟩⟩, ⟨.NumberLiteral "2", ⟨4, 5⟩⟩], ⟨5, 5⟩⟩
      = some (.ok (.expr (.Binary (.expr (.Constant (.Number "1")) ⟨0, 1⟩)
          ⟨.Minus, ⟨2, 3⟩⟩ (.expr (.Constant (.Number "2")) ⟨4, 5⟩)) ⟨0, 5⟩),
          ⟨[], ⟨5, 5⟩⟩) ∧
    multiplicationLoop 12 (.expr (.Constant (.Number "1")) ⟨0, 1⟩)
        ⟨[⟨.Star, ⟨2, 3⟩⟩, ⟨.NumberLiteral "2", ⟨4, 5⟩⟩], ⟨5, 5⟩⟩
      = some (.ok (.expr (.Binary (.expr (.Constant (.Number "1")) ⟨0, 1⟩)
          ⟨.Star, ⟨2, 3⟩⟩ (.expr (.Constant (.Number "2")) ⟨4, 5⟩)) ⟨0, 5⟩),
          ⟨[], ⟨5, 5⟩⟩) :=
  ⟨C6_binary_left_assoc.2.1 10 (.expr (.Constant (.Number "1")) ⟨0, 1⟩)
      ⟨[⟨.EqualEqual, ⟨2, 3⟩⟩, ⟨.NumberLiteral "2", ⟨4, 5⟩⟩], ⟨5, 5⟩⟩
      (.expr (.Constant (.Number "2")) ⟨4, 5⟩) ⟨[], ⟨5, 5⟩⟩
      (Or.inl rfl) rfl (by decide),
   C6_binary_left_assoc.2.2.1 10 (.expr (.Constant (.Number "1")) ⟨0, 1⟩)
      ⟨[⟨.Less, ⟨2, 3⟩⟩, ⟨.NumberLiteral "2", ⟨4, 5⟩⟩], ⟨5, 5⟩⟩
      (.expr (.Constant (.Number "2")) ⟨4, 5⟩) ⟨[], ⟨5, 5⟩⟩
      (Or.inl rfl) rfl (by decide),
   C6_binary_left_assoc.2.2.2.1 10 (.expr (.Constant (.Number "1")) ⟨0, 1⟩)
      ⟨[⟨.Minus, ⟨2, 3⟩⟩, ⟨.NumberLiteral "2", ⟨4, 5⟩⟩], ⟨5, 5⟩⟩
      (.expr (.Constant (.Number "2")) ⟨4, 5⟩) ⟨[], ⟨5, 5⟩⟩
      (Or.inr rfl) rfl (by decide),
   C6_binary_left_assoc.2.2.2.2 10 (.expr (.Constant (.Number "1")) ⟨0, 1⟩)
      ⟨[⟨.Star, ⟨2, 3⟩⟩, ⟨.NumberLiteral "2", ⟨4, 5⟩⟩], ⟨5, 5⟩⟩
      (.expr (.Constant (.Number "2")) ⟨4, 5⟩) ⟨[], ⟨5, 5⟩⟩
      (Or.inl rfl) rfl (by decide)⟩

/-- C7: assignment associates right — `a = b = 3` parses to
`Assignment(a, =, Assignment(b, =, 3))` — and when the assignment tier sees
`=` after its left operand, the right-hand side comes from a recursive call
to the assignment tier itself. -/
theorem C7_assignment_right_assoc :
    (expression 20 asgInput = some (.ok asgNode, ⟨[], ⟨9, 9⟩⟩)) ∧
    (∀ (g : Nat) (p : Parser) (node : AstNode) (p1 : Parser)
        (rv : AstNode) (p3 : Parser),
      logic_or g p = some (.ok node, p1) →
      p1.current.kind = Kind.Equal →
      assignment g ((p1.advance).2) = some (.ok rv, p3) →
      assignment (g + 1) p
        = some (.ok (AstNode.new_expression
            (.Assignment node (p1.advance).1 rv)
            (Span.merge [node.span, (p1.advance).1.span, rv.span])), p3)) := by
  refine ⟨rfl, ?_⟩
  intro g p node p1 rv p3 h1 h2 h3
  simp only [assignment]
  rw [h1]
  simp only [pbind]
  rw [if_pos h2]
  rw [h3]
  simp only [pbind]
  rfl

/-- C7 witness: one right-associative step on `a = b = 3` — the right-hand
side of the outer `=` is the nested assignment `b = 3`. -/
theorem C7_assignment_right_assoc_witness :
    assignment 19 asgInput = some (.ok asgNode, ⟨[], ⟨9, 9⟩⟩) :=
  C7_assignment_right_assoc.2 18 asgInput (.expr (.Variable "a") ⟨0, 1⟩)
    ⟨[⟨.Equal, ⟨2, 3⟩⟩, ⟨.IdentifierLiteral "b", ⟨4, 5⟩⟩, ⟨.Equal, ⟨6, 7⟩⟩,
      ⟨.NumberLiteral "3", ⟨8, 9⟩⟩], ⟨9, 9⟩⟩
    (.expr (.Assignment (.expr (.Variable "b") ⟨4, 5⟩) ⟨.Equal, ⟨6, 7⟩⟩
      (.expr (.Constant (.Number "3")) ⟨8, 9⟩)) ⟨4, 9⟩)
    ⟨[], ⟨9, 9⟩⟩ rfl rfl rfl

/-- C9: the call tier attaches at most one argument list: after a primary
followed by `(` `)` it returns the `Call` node with the state right after
the closing `)`, without checking whether another `(` follows — shown
concretely on `f()()`, where the second `()` is left unconsumed. -/
theorem C9_call_no_chain :
    (∀ (g : Nat) (p : Parser) (prim : AstNode) (p1 : Parser)
        (rp : Token) (p3 : Parser),
      primary g p = some (.ok prim, p1) →
      p1.current.kind = Kind.LeftParen →
      ((p1.advance).2).current.kind = Kind.RightParen →
      ((p1.advance).2).eat .RightParen "Expected ')' after argument list."
        = (.ok rp, p3) →
      call (g + 1) p
        = some (.ok (AstNode.new_expression (.Call prim [])
            (Span.merge [prim.span, rp.span])), p3)) ∧
    (call 20 callCallInput
      = some (.ok fCallNode,
          ⟨[⟨.LeftParen, ⟨3, 4⟩⟩, ⟨.RightParen, ⟨4, 5⟩⟩], ⟨5, 5⟩⟩)) ∧
    ((Parser.current ⟨[⟨.LeftParen, ⟨3, 4⟩⟩, ⟨.RightParen, ⟨4, 5⟩⟩],
        ⟨5, 5⟩⟩).kind = Kind.LeftParen) := by
  refine ⟨?_, rfl, rfl⟩
  intro g p prim p1 rp p3 h1 h2 h3 h4
  simp only [call]
  rw [h1]
  simp only [pbind]
  rw [if_pos h2]
  simp only [h3]
  simp only [pbind, pok]
  rw [h4]
  simp only [ebind]
  try rfl

/-- C9 witness: one application of the call step on the `f()` prefix of
`f()()`; the resulting state still has the second `(` as its current
token. -/
theorem C9_call_no_chain_witness :
    call 20 callCallInput
      = some (.ok fCallNode,
          ⟨[⟨.LeftParen, ⟨3, 4⟩⟩, ⟨.RightParen, ⟨4, 5⟩⟩], ⟨5, 5⟩⟩) :=
  C9_call_no_chain.1 19 callCallInput (.expr (.Variable "f") ⟨0, 1⟩)
    ⟨[⟨.LeftParen, ⟨1, 2⟩⟩, ⟨.RightParen, ⟨2, 3⟩⟩, ⟨.LeftParen, ⟨3, 4⟩⟩,
      ⟨.RightParen, ⟨4, 5⟩⟩], ⟨5, 5⟩⟩
    ⟨.RightParen, ⟨2, 3⟩⟩
    ⟨[⟨.LeftParen, ⟨3, 4⟩⟩, ⟨.RightParen, ⟨4, 5⟩⟩], ⟨5, 5⟩⟩
    rfl rfl rfl rfl

end Rlox
